import Mathlib

/-!
Verification of the match-simulator club-management application.

The repository's single source file `app.py` defines the SQLite schema
(`init_database`), user registration (`create_user`) and the catalog seed
(`initialize_players_from_csv`).  Those parts are embedded here directly
from the source.  The transfer-and-economy core (bid submission and
resolution, cash crediting/debiting, item distribution, audit trail) is
implemented in the repository's `pages.py` / `user_pages.py`, which are
imported by `app.py` but are not part of the provided sources; that core
is modelled from the specification, as marked on each definition.

Money amounts (SQLite `REAL`) are modelled as rationals, quantities
(SQLite `INTEGER`) as integers, timestamps as naturals, and each table as
a list of rows in insertion order.
-/

namespace MatchSim

/-- A row of the `users` table, as created by `init_database` in `app.py`:
`id` autoincrement primary key, `username` UNIQUE NOT NULL, `password_hash`,
`role`, optional `email` and `club_name`, `cash REAL DEFAULT 0`,
`status TEXT DEFAULT 'pending'`. -/
structure UserRow where
  id : Nat
  username : String
  password_hash : String
  role : String
  email : Option String
  club_name : Option String
  cash : Rat
  status : String
deriving DecidableEq

/-- `create_user` from `app.py`: hashes the password and runs
`INSERT INTO users (username, password_hash, role, email) VALUES (?,?,?,?)`.
The UNIQUE constraint on `username` makes the insert raise
`sqlite3.IntegrityError` when the username exists, in which case the
function returns `False` and the table is untouched; otherwise the row is
inserted with the schema defaults `cash = 0`, `status = 'pending'`,
`club_name = NULL` and the function returns `True`.  The SHA-256 password
hash is an external collaborator, passed in as `hash`. -/
def create_user (hash : String → String) (db : List UserRow)
    (username password role : String) (email : Option String) :
    List UserRow × Bool :=
  if db.any (fun u => u.username = username) then
    (db, false)
  else
    (db ++ [{ id := db.length + 1, username := username,
              password_hash := hash password, role := role, email := email,
              club_name := none, cash := 0, status := "pending" }], true)

/-- A row of the `players` table from `init_database` in `app.py`:
`player_id TEXT UNIQUE`, name, positions, club, optional numeric fields,
and `is_custom BOOLEAN DEFAULT FALSE` distinguishing catalog imports from
admin-authored players. -/
structure PlayerRow where
  player_id : String
  player_name : String
  positions : String
  club_name : String
  age : Option Int
  nationality : String
  overall_rating : Option Int
  potential : Option Int
  value_eur : Option Rat
  wage_eur : Option Rat
  is_custom : Bool
deriving DecidableEq

/-- One record of `player-data-full.csv` after the per-field conversions in
`initialize_players_from_csv` (strings via `str(...)`, numeric fields
`None` when the CSV cell is NA). -/
structure CsvRow where
  sofifa_id : String
  short_name : String
  player_positions : String
  club_name : String
  age : Option Int
  nationality_name : String
  overall : Option Int
  potential : Option Int
  value_eur : Option Rat
  wage_eur : Option Rat
deriving DecidableEq

/-- The column mapping used by the `INSERT` in `initialize_players_from_csv`:
a CSV record becomes a non-custom player row. -/
def rowToPlayer (r : CsvRow) : PlayerRow :=
  { player_id := r.sofifa_id, player_name := r.short_name,
    positions := r.player_positions, club_name := r.club_name,
    age := r.age, nationality := r.nationality_name,
    overall_rating := r.overall, potential := r.potential,
    value_eur := r.value_eur, wage_eur := r.wage_eur, is_custom := false }

/-- `INSERT OR IGNORE INTO players` keyed on the UNIQUE `player_id`
column: the row is appended unless a row with the same `player_id` is
already present, in which case the statement is a no-op. -/
def insertOrIgnorePlayer (tbl : List PlayerRow) (p : PlayerRow) :
    List PlayerRow :=
  if tbl.any (fun q => q.player_id = p.player_id) then tbl else tbl ++ [p]

/-- `initialize_players_from_csv` from `app.py`: counts non-custom rows
(`SELECT COUNT(*) FROM players WHERE is_custom = FALSE`); only when that
count is zero and the CSV loaded non-empty does it insert every CSV record
with `INSERT OR IGNORE`. -/
def initialize_players_from_csv (csv : List CsvRow) (tbl : List PlayerRow) :
    List PlayerRow :=
  if tbl.countP (fun p => !p.is_custom) = 0 then
    if csv.isEmpty then tbl
    else csv.foldl (fun t r => insertOrIgnorePlayer t (rowToPlayer r)) tbl
  else tbl

/-! ## The transfer-and-economy core

The operations below implement the approval-gated ledger engine of the
spec (account ledger, bid workflow, distribution engine, audit trail).
Their code lives in the repository's `pages.py` / `user_pages.py`, which
are imported by `app.py` but are not among the provided sources, so each
operation is modelled from the specification's contract. -/

/-- Modelled from the spec: the error taxonomy of §7; the implementing
code (`pages.py` / `user_pages.py`) is not among the sources. -/
inductive Err where
  | InvalidAmount
  | InvalidQuantity
  | InsufficientFunds
  | InsufficientFundsAtApproval
  | AccountNotApproved
  | AlreadyResolved
  | UnknownAccount
  | StorageUnavailable
deriving DecidableEq

/-- Modelled from the spec: an account as seen by the core — role,
approval status and cash balance (§3 Account); backed by the `users`
table of `app.py`. -/
structure Account where
  id : Nat
  role : String
  status : String
  cash : Rat
deriving DecidableEq

/-- Modelled from the spec: a transfer bid (§3 TransferBid); backed by the
`transfer_bids` table of `app.py` (`status TEXT DEFAULT 'pending'`,
nullable `approved_at`). -/
structure Bid where
  id : Nat
  user_id : Nat
  player_id : String
  amount : Rat
  note : String
  status : String
  created : Nat
  resolved : Option Nat
deriving DecidableEq

/-- Modelled from the spec: one inventory grant (§3 InventoryGrant);
backed by the `user_inventory` table of `app.py`. -/
structure Grant where
  user_id : Nat
  item_name : String
  quantity : Int
  received_at : Nat
deriving DecidableEq

/-- Modelled from the spec: one audit-trail record (§3 AuditEntry); the
audit table itself is part of the missing core code. -/
structure AuditEntry where
  kind : String
  subject : Nat
  amount : Option Rat
  ts : Nat
deriving DecidableEq

/-- The persistent state of the core: the four entity tables. -/
structure State where
  accounts : List Account
  bids : List Bid
  inv : List Grant
  audit : List AuditEntry
deriving DecidableEq

def findAccount (st : State) (uid : Nat) : Option Account :=
  st.accounts.find? (fun a => a.id = uid)

def findBid (st : State) (i : Nat) : Option Bid :=
  st.bids.find? (fun b => b.id = i)

/-- Update the first row whose key matches `i` (SQL `UPDATE … WHERE id = ?`
on a primary-key column). -/
def updateFirst {α : Type} (key : α → Nat) (i : Nat) (f : α → α) :
    List α → List α
  | [] => []
  | x :: xs => if key x = i then f x :: xs else x :: updateFirst key i f xs

/-- Modelled from the spec: `balance_of` (§4.1), a pure read of the cash
balance. -/
def balance_of (st : State) (uid : Nat) : Option Rat :=
  (findAccount st uid).map (fun a => a.cash)

/-- Modelled from the spec: `credit(account, amount)` (§4.1) — requires
`amount > 0` (`InvalidAmount`) and an existing account (`UnknownAccount`);
increases the balance and emits an `AuditEntry(cash_granted)`. -/
def credit (st : State) (uid : Nat) (amount : Rat) (now : Nat) :
    Except Err State :=
  if amount ≤ 0 then .error .InvalidAmount
  else
    match findAccount st uid with
    | none => .error .UnknownAccount
    | some _ => .ok { st with
        accounts := updateFirst (fun a => a.id) uid
          (fun a => { a with cash := a.cash + amount }) st.accounts,
        audit := st.audit ++
          [{ kind := "cash_granted", subject := uid,
             amount := some amount, ts := now }] }

/-- Modelled from the spec: `debit(account, amount)` (§4.1) — requires
`amount > 0` (`InvalidAmount`) and `balance ≥ amount` checked atomically
with the subtraction (`InsufficientFunds`). -/
def debit (st : State) (uid : Nat) (amount : Rat) : Except Err State :=
  if amount ≤ 0 then .error .InvalidAmount
  else
    match findAccount st uid with
    | none => .error .UnknownAccount
    | some a =>
      if a.cash < amount then .error .InsufficientFunds
      else .ok { st with
        accounts := updateFirst (fun a => a.id) uid
          (fun a => { a with cash := a.cash - amount }) st.accounts }

/-- Modelled from the spec: `grant_item(account, item_name, quantity)`
(§4.1) — requires `quantity > 0` (`InvalidQuantity`) and an existing
account; appends an InventoryGrant and emits `AuditEntry(item_granted)`. -/
def grant_item (st : State) (uid : Nat) (item : String) (qty : Int)
    (now : Nat) : Except Err State :=
  if qty ≤ 0 then .error .InvalidQuantity
  else
    match findAccount st uid with
    | none => .error .UnknownAccount
    | some _ => .ok { st with
        inv := st.inv ++
          [{ user_id := uid, item_name := item, quantity := qty,
             received_at := now }],
        audit := st.audit ++
          [{ kind := "item_granted", subject := uid,
             amount := some (qty : Rat), ts := now }] }

/-- Modelled from the spec: `submit(account, player, amount, note)`
(§4.2) — requires `account.status = approved` (`AccountNotApproved`) and
`amount > 0` (`InvalidAmount`); creates a pending TransferBid and emits
`AuditEntry(bid_created)`; no ledger effect and no escrow. -/
def submit (st : State) (uid : Nat) (player : String) (amount : Rat)
    (note : String) (now : Nat) : Except Err State :=
  match findAccount st uid with
  | none => .error .UnknownAccount
  | some a =>
    if a.status ≠ "approved" then .error .AccountNotApproved
    else if amount ≤ 0 then .error .InvalidAmount
    else .ok { st with
      bids := st.bids ++
        [{ id := st.bids.length + 1, user_id := uid, player_id := player,
           amount := amount, note := note, status := "pending",
           created := now, resolved := none }],
      audit := st.audit ++
        [{ kind := "bid_created", subject := st.bids.length + 1,
           amount := some amount, ts := now }] }

/-- Modelled from the spec: `approve(admin, bid)` (§4.2) — requires
`bid.status = pending` (`AlreadyResolved`); re-reads the requesting
account's balance; `InsufficientFundsAtApproval` when it is below the bid
amount, leaving the bid pending; on success debits the account by the bid
amount, marks the bid approved with a resolution timestamp and emits
`AuditEntry(bid_approved)` with the bid amount, atomically. -/
def approve (st : State) (i : Nat) (now : Nat) : Except Err State :=
  match findBid st i with
  | none => .error .UnknownAccount
  | some b =>
    if b.status ≠ "pending" then .error .AlreadyResolved
    else
      match findAccount st b.user_id with
      | none => .error .UnknownAccount
      | some a =>
        if a.cash < b.amount then .error .InsufficientFundsAtApproval
        else .ok { st with
          accounts := updateFirst (fun x => x.id) b.user_id
            (fun x => { x with cash := x.cash - b.amount }) st.accounts,
          bids := updateFirst (fun x => x.id) i
            (fun x => { x with status := "approved", resolved := some now })
            st.bids,
          audit := st.audit ++
            [{ kind := "bid_approved", subject := i,
               amount := some b.amount, ts := now }] }

/-- Modelled from the spec: `reject(admin, bid)` (§4.2) — requires
`bid.status = pending` (`AlreadyResolved`); marks the bid rejected with a
resolution timestamp and emits `AuditEntry(bid_rejected)`; no ledger
effect. -/
def reject (st : State) (i : Nat) (now : Nat) : Except Err State :=
  match findBid st i with
  | none => .error .UnknownAccount
  | some b =>
    if b.status ≠ "pending" then .error .AlreadyResolved
    else .ok { st with
      bids := updateFirst (fun x => x.id) i
        (fun x => { x with status := "rejected", resolved := some now })
        st.bids,
      audit := st.audit ++
        [{ kind := "bid_rejected", subject := i, amount := none,
           ts := now }] }

/-- Modelled from the spec: the item part of one account's share of a
distribution — each item grant applied in sequence, first error
reported. -/
def grantItems (st : State) (uid : Nat) (items : List (String × Int))
    (now : Nat) : State × Option Err :=
  match items with
  | [] => (st, none)
  | (it, q) :: rest =>
    match grant_item st uid it q now with
    | .error e => (st, some e)
    | .ok st1 => grantItems st1 uid rest now

/-- Modelled from the spec: one account's share of a `distribute` call —
the optional cash credit followed by the item grants, reporting the first
error for this account, if any. -/
def grantOne (st : State) (uid : Nat) (cash : Option Rat)
    (items : List (String × Int)) (now : Nat) : State × Option Err :=
  match cash with
  | none => grantItems st uid items now
  | some c =>
    match credit st uid c now with
    | .error e => (st, some e)
    | .ok st1 => grantItems st1 uid items now

/-- Modelled from the spec: `distribute(admin, accounts, cash_amount,
items)` (§4.4) — applies the grant to every listed account independently
(best-effort broadcast, no rollback across accounts) and returns the
per-account result list. -/
def distribute (st : State) (uids : List Nat) (cash : Option Rat)
    (items : List (String × Int)) (now : Nat) :
    State × List (Nat × Option Err) :=
  match uids with
  | [] => (st, [])
  | u :: rest =>
    let p := grantOne st u cash items now
    let q := distribute p.1 rest cash items now
    (q.1, (u, p.2) :: q.2)

/-- Modelled from the spec: account creation (§3 Account lifecycle) —
created with `status = pending` and `cash = 0`; the UNIQUE constraint
makes a duplicate registration a no-op here. -/
def register (st : State) (uid : Nat) (role : String) : State :=
  if (findAccount st uid).isSome then st
  else { st with accounts := st.accounts ++
      [{ id := uid, role := role, status := "pending", cash := 0 }] }

/-- Modelled from the spec: the admin-only account status change (§6),
audited as `account_status_changed`. -/
def set_account_status (st : State) (uid : Nat) (stat : String)
    (now : Nat) : Except Err State :=
  match findAccount st uid with
  | none => .error .UnknownAccount
  | some _ => .ok { st with
      accounts := updateFirst (fun a => a.id) uid
        (fun a => { a with status := stat }) st.accounts,
      audit := st.audit ++
        [{ kind := "account_status_changed", subject := uid,
           amount := none, ts := now }] }

/-- Modelled from the spec: the operations a session may issue against
the core (§6 external interfaces). -/
inductive Op where
  | register (uid : Nat) (role : String)
  | set_status (uid : Nat) (stat : String) (now : Nat)
  | credit (uid : Nat) (amount : Rat) (now : Nat)
  | debit (uid : Nat) (amount : Rat)
  | grant (uid : Nat) (item : String) (qty : Int) (now : Nat)
  | submit (uid : Nat) (player : String) (amount : Rat) (note : String)
      (now : Nat)
  | approve (i : Nat) (now : Nat)
  | reject (i : Nat) (now : Nat)
  | distribute (uids : List Nat) (cash : Option Rat)
      (items : List (String × Int)) (now : Nat)

/-- A failed operation surfaces its error to the caller and leaves the
state unchanged (§7: validation and race errors cause no partial
mutation). -/
def orSame (st : State) : Except Err State → State
  | .ok st1 => st1
  | .error _ => st

/-- The state transition of one operation. -/
def applyOp (op : Op) (st : State) : State :=
  match op with
  | .register uid role => register st uid role
  | .set_status uid stat now => orSame st (set_account_status st uid stat now)
  | .credit uid amount now => orSame st (credit st uid amount now)
  | .debit uid amount => orSame st (debit st uid amount)
  | .grant uid item qty now => orSame st (grant_item st uid item qty now)
  | .submit uid player amount note now =>
      orSame st (submit st uid player amount note now)
  | .approve i now => orSame st (approve st i now)
  | .reject i now => orSame st (reject st i now)
  | .distribute uids cash items now => (distribute st uids cash items now).1

/-- The empty initial state: no accounts, bids, inventory or audit rows. -/
def initState : State := ⟨[], [], [], []⟩

/-- States reachable from the initial state by any sequence of core
operations issued by any sessions. -/
inductive Reachable : State → Prop where
  | init : Reachable initState
  | step (op : Op) {st : State} : Reachable st → Reachable (applyOp op st)

def NonNeg (st : State) : Prop := ∀ a ∈ st.accounts, 0 ≤ a.cash

/-- Modelled from the spec: the total quantity of one item granted to one
account — the sum of the quantities of all matching InventoryGrant rows. -/
def itemTotal (st : State) (uid : Nat) (item : String) : Int :=
  ((st.inv.filter (fun g => g.user_id = uid ∧ g.item_name = item)).map
    (fun g => g.quantity)).sum

/-- Modelled from the spec: `inventory_of(account)` (§4.1) — a pure read
returning the item-to-total-quantity mapping with unique keys. -/
def inventory_of (st : State) (uid : Nat) : List (String × Int) :=
  (((st.inv.filter (fun g => g.user_id = uid)).map
      (fun g => g.item_name)).dedup).map (fun it => (it, itemTotal st uid it))

/-! ### Lemmas about the catalog seed -/

lemma insertOrIgnorePlayer_cases (tbl : List PlayerRow) (p : PlayerRow) :
    insertOrIgnorePlayer tbl p = tbl ∨ insertOrIgnorePlayer tbl p = tbl ++ [p] := by
  unfold insertOrIgnorePlayer
  by_cases h : tbl.any (fun q => q.player_id = p.player_id)
  · exact Or.inl (if_pos h)
  · exact Or.inr (if_neg h)

lemma seed_foldl_grows (csv : List CsvRow) (t : List PlayerRow) :
    ∃ s, csv.foldl (fun t r => insertOrIgnorePlayer t (rowToPlayer r)) t = t ++ s
      ∧ ∀ p ∈ s, p.is_custom = false := by
  induction csv generalizing t with
  | nil => exact ⟨[], by simp⟩
  | cons r rs ih =>
    rcases insertOrIgnorePlayer_cases t (rowToPlayer r) with h | h
    · rcases ih t with ⟨s, hs, hall⟩
      exact ⟨s, by simpa [List.foldl_cons, h] using hs, hall⟩
    · rcases ih (t ++ [rowToPlayer r]) with ⟨s, hs, hall⟩
      refine ⟨rowToPlayer r :: s, ?_, ?_⟩
      · simpa [List.foldl_cons, h, List.append_assoc] using hs
      · intro p hp
        rcases List.mem_cons.mp hp with hp | hp
        · subst hp; rfl
        · exact hall p hp

lemma insertOrIgnorePlayer_nodup (tbl : List PlayerRow) (p : PlayerRow)
    (h : (tbl.map (fun q => q.player_id)).Nodup) :
    ((insertOrIgnorePlayer tbl p).map (fun q => q.player_id)).Nodup := by
  unfold insertOrIgnorePlayer
  by_cases hc : tbl.any (fun q => q.player_id = p.player_id)
  · simpa [hc] using h
  · have hnot : p.player_id ∉ tbl.map (fun q => q.player_id) := by
      intro hmem
      rcases List.mem_map.mp hmem with ⟨q, hq, hqe⟩
      have : tbl.any (fun q => q.player_id = p.player_id) = true :=
        List.any_eq_true.mpr ⟨q, hq, by simp [hqe]⟩
      exact hc this
    rw [if_neg hc, List.map_append]
    refine List.Nodup.append h ?_ ?_
    · simp
    · intro a ha hb
      simp only [List.map_cons, List.map_nil, List.mem_singleton] at hb
      subst hb
      exact hnot ha

lemma seed_foldl_nodup (csv : List CsvRow) (t : List PlayerRow)
    (h : (t.map (fun q => q.player_id)).Nodup) :
    (((csv.foldl (fun t r => insertOrIgnorePlayer t (rowToPlayer r)) t).map
        (fun q => q.player_id)).Nodup) := by
  induction csv generalizing t with
  | nil => simpa using h
  | cons r rs ih =>
    simpa [List.foldl_cons] using
      ih (insertOrIgnorePlayer t (rowToPlayer r))
        (insertOrIgnorePlayer_nodup t (rowToPlayer r) h)

lemma seed_skip (csv : List CsvRow) (tbl : List PlayerRow)
    (h : tbl.countP (fun p => !p.is_custom) ≠ 0) :
    initialize_players_from_csv csv tbl = tbl := by
  simp [initialize_players_from_csv, h]

lemma seed_empty (csv : List CsvRow) (tbl : List PlayerRow)
    (hcsv : csv.isEmpty = true) :
    initialize_players_from_csv csv tbl = tbl := by
  simp [initialize_players_from_csv, hcsv]

lemma seed_run (csv : List CsvRow) (tbl : List PlayerRow)
    (h : tbl.countP (fun p => !p.is_custom) = 0) (hcsv : csv.isEmpty = false) :
    initialize_players_from_csv csv tbl
      = csv.foldl (fun t r => insertOrIgnorePlayer t (rowToPlayer r)) tbl := by
  simp [initialize_players_from_csv, h, hcsv]

/-! ### Claim theorems for the code-derived part -/

/-- C8: every account created at registration starts with
`status = "pending"` and cash balance `0`, whatever the role, email or
credentials supplied: whenever `create_user` succeeds it appends exactly
one row and that row carries the schema defaults. -/
theorem create_user_initial_state (hash : String → String)
    (db : List UserRow) (username password role : String)
    (email : Option String)
    (h : (create_user hash db username password role email).2 = true) :
    ∃ row : UserRow,
      (create_user hash db username password role email).1 = db ++ [row]
      ∧ row.status = "pending" ∧ row.cash = 0
      ∧ row.username = username ∧ row.role = role := by
  unfold create_user at h ⊢
  by_cases hc : db.any (fun u => u.username = username)
  · simp [hc] at h
  · refine ⟨{ id := db.length + 1, username := username,
              password_hash := hash password, role := role, email := email,
              club_name := none, cash := 0, status := "pending" },
      ?_, rfl, rfl, rfl, rfl⟩
    simp [hc]

theorem create_user_initial_state_witness :
    ∃ row : UserRow,
      (create_user id [] "alice" "pw" "user" none).1 = [] ++ [row]
      ∧ row.status = "pending" ∧ row.cash = 0
      ∧ row.username = "alice" ∧ row.role = "user" :=
  create_user_initial_state id [] "alice" "pw" "user" none (by decide)

/-- C10: username uniqueness in `create_user`.  If a row with the given
username exists, the call returns `False` and the users table is
unchanged; otherwise it appends exactly one new row carrying that
username and returns `True`. -/
theorem create_user_unique_username (hash : String → String)
    (db : List UserRow) (username password role : String)
    (email : Option String) :
    ((∃ u ∈ db, u.username = username) →
        create_user hash db username password role email = (db, false))
    ∧ ((¬ ∃ u ∈ db, u.username = username) →
        ∃ row : UserRow,
          create_user hash db username password role email
            = (db ++ [row], true) ∧ row.username = username) := by
  constructor
  · intro h
    unfold create_user
    rw [if_pos]
    simpa [List.any_eq_true] using h
  · intro h
    refine ⟨{ id := db.length + 1, username := username,
              password_hash := hash password, role := role, email := email,
              club_name := none, cash := 0, status := "pending" }, ?_, rfl⟩
    unfold create_user
    rw [if_neg]
    simpa [List.any_eq_true] using h

theorem create_user_unique_username_witness :
    create_user id
        [⟨1, "bob", "h", "user", none, none, 0, "pending"⟩]
        "bob" "pw2" "user" none
      = ([⟨1, "bob", "h", "user", none, none, 0, "pending"⟩], false) :=
  (create_user_unique_username id
      [⟨1, "bob", "h", "user", none, none, 0, "pending"⟩]
      "bob" "pw2" "user" none).1 (by decide)

/-- C9: the catalog seed is idempotent.  Running
`initialize_players_from_csv` a second time over the same catalog file
leaves the players table unchanged, and the seed never duplicates a
catalog entry: distinctness of the external `player_id` key is
preserved. -/
theorem catalog_seed_idempotent (csv : List CsvRow) (tbl : List PlayerRow) :
    initialize_players_from_csv csv (initialize_players_from_csv csv tbl)
      = initialize_players_from_csv csv tbl
    ∧ ((tbl.map (fun p => p.player_id)).Nodup →
        ((initialize_players_from_csv csv tbl).map
            (fun p => p.player_id)).Nodup) := by
  constructor
  · by_cases hcsv : csv.isEmpty
    · rw [seed_empty csv tbl hcsv, seed_empty csv tbl hcsv]
    · have hcsv' : csv.isEmpty = false := by simpa using hcsv
      by_cases h0 : tbl.countP (fun p => !p.is_custom) = 0
      · rcases seed_foldl_grows csv tbl with ⟨s, hs, hall⟩
        rcases eq_or_ne s [] with hnil | hnil
        · subst hnil
          rw [List.append_nil] at hs
          rw [seed_run csv tbl h0 hcsv', hs, seed_run csv tbl h0 hcsv', hs]
        · have hcnt : (tbl ++ s).countP (fun p => !p.is_custom) ≠ 0 := by
            have hslen : s.countP (fun p => !p.is_custom) = s.length :=
              List.countP_eq_length.mpr (fun p hp => by simp [hall p hp])
            have hlen : s.length ≠ 0 := by
              intro hl
              exact hnil (List.length_eq_zero.mp hl)
            rw [List.countP_append, h0, Nat.zero_add, hslen]
            exact hlen
          rw [seed_run csv tbl h0 hcsv', hs, seed_skip csv (tbl ++ s) hcnt]
      · rw [seed_skip csv tbl h0, seed_skip csv tbl h0]
  · intro hnd
    by_cases hcsv : csv.isEmpty
    · rw [seed_empty csv tbl hcsv]
      exact hnd
    · have hcsv' : csv.isEmpty = false := by simpa using hcsv
      by_cases h0 : tbl.countP (fun p => !p.is_custom) = 0
      · rw [seed_run csv tbl h0 hcsv']
        exact seed_foldl_nodup csv tbl hnd
      · rw [seed_skip csv tbl h0]
        exact hnd

theorem catalog_seed_idempotent_witness :
    (initialize_players_from_csv
        [⟨"7", "CR7", "ST", "Club", some 38, "POR", some 90, some 92,
          some 1000, some 100⟩,
         ⟨"7", "CR7", "ST", "Club", some 38, "POR", some 90, some 92,
          some 1000, some 100⟩]
        (initialize_players_from_csv
          [⟨"7", "CR7", "ST", "Club", some 38, "POR", some 90, some 92,
            some 1000, some 100⟩,
           ⟨"7", "CR7", "ST", "Club", some 38, "POR", some 90, some 92,
            some 1000, some 100⟩] [])
      = initialize_players_from_csv
        [⟨"7", "CR7", "ST", "Club", some 38, "POR", some 90, some 92,
          some 1000, some 100⟩,
         ⟨"7", "CR7", "ST", "Club", some 38, "POR", some 90, some 92,
          some 1000, some 100⟩] [])
    ∧ ((initialize_players_from_csv
          [⟨"7", "CR7", "ST", "Club", some 38, "POR", some 90, some 92,
            some 1000, some 100⟩,
           ⟨"7", "CR7", "ST", "Club", some 38, "POR", some 90, some 92,
            some 1000, some 100⟩] []).map (fun p => p.player_id)).Nodup :=
  ⟨(catalog_seed_idempotent _ []).1, (catalog_seed_idempotent _ []).2 (by decide)⟩

/-! ### Row-update lemmas -/

lemma updateFirst_of_find?_none {α : Type} (key : α → Nat) (i : Nat)
    (f : α → α) :
    ∀ l : List α, l.find? (fun y => key y = i) = none →
      updateFirst key i f l = l := by
  intro l
  induction l with
  | nil => intro _; rfl
  | cons a as ih =>
    intro h
    by_cases hk : key a = i
    · rw [List.find?_cons_of_pos as (by simpa using hk)] at h
      exact absurd h (by simp)
    · rw [List.find?_cons_of_neg as (by simpa using hk)] at h
      simp [updateFirst, hk, ih h]

lemma updateFirst_decomp {α : Type} (key : α → Nat) (i : Nat) (f : α → α) :
    ∀ (l : List α) (x : α), l.find? (fun y => key y = i) = some x →
      ∃ l₁ l₂, l = l₁ ++ x :: l₂ ∧ updateFirst key i f l = l₁ ++ f x :: l₂
        ∧ key x = i ∧ ∀ y ∈ l₁, key y ≠ i := by
  intro l
  induction l with
  | nil => intro x h; simp [List.find?] at h
  | cons a as ih =>
    intro x h
    by_cases hk : key a = i
    · rw [List.find?_cons_of_pos as (by simpa using hk)] at h
      injection h with h
      subst h
      refine ⟨[], as, by simp, ?_, hk, by simp⟩
      simp [updateFirst, hk]
    · rw [List.find?_cons_of_neg as (by simpa using hk)] at h
      rcases ih x h with ⟨l₁, l₂, hl, hu, hx, hni⟩
      refine ⟨a :: l₁, l₂, by simp [hl], ?_, hx, ?_⟩
      · simp [updateFirst, hk, hu]
      · intro y hy
        rcases List.mem_cons.mp hy with rfl | hy
        · exact hk
        · exact hni y hy

lemma find?_updateFirst_ne {α : Type} (key : α → Nat) (i j : Nat)
    (f : α → α) (hf : ∀ x, key (f x) = key x) (hij : j ≠ i) :
    ∀ l : List α, (updateFirst key i f l).find? (fun y => key y = j)
      = l.find? (fun y => key y = j) := by
  intro l
  induction l with
  | nil => rfl
  | cons a as ih =>
    by_cases hk : key a = i
    · have h1 : ¬ key a = j := by rw [hk]; exact fun h => hij h.symm
      have h2 : ¬ key (f a) = j := by rw [hf a, hk]; exact fun h => hij h.symm
      rw [show updateFirst key i f (a :: as) = f a :: as from by
            simp [updateFirst, hk]]
      rw [List.find?_cons_of_neg as (by simpa using h2),
        List.find?_cons_of_neg as (by simpa using h1)]
    · rw [show updateFirst key i f (a :: as) = a :: updateFirst key i f as
            from by simp [updateFirst, hk]]
      by_cases hj : key a = j
      · rw [List.find?_cons_of_pos _ (by simpa using hj),
          List.find?_cons_of_pos _ (by simpa using hj)]
      · rw [List.find?_cons_of_neg _ (by simpa using hj),
          List.find?_cons_of_neg _ (by simpa using hj), ih]

lemma find?_updateFirst_eq {α : Type} (key : α → Nat) (i : Nat)
    (f : α → α) (hf : ∀ x, key (f x) = key x) :
    ∀ (l : List α) (x : α), l.find? (fun y => key y = i) = some x →
      (updateFirst key i f l).find? (fun y => key y = i) = some (f x) := by
  intro l
  induction l with
  | nil => intro x h; simp [List.find?] at h
  | cons a as ih =>
    intro x h
    by_cases hk : key a = i
    · rw [List.find?_cons_of_pos as (by simpa using hk)] at h
      injection h with h
      subst h
      rw [show updateFirst key i f (a :: as) = f a :: as from by
            simp [updateFirst, hk]]
      exact List.find?_cons_of_pos as (by simp [hf, hk])
    · rw [List.find?_cons_of_neg as (by simpa using hk)] at h
      rw [show updateFirst key i f (a :: as) = a :: updateFirst key i f as
            from by simp [updateFirst, hk]]
      rw [List.find?_cons_of_neg _ (by simpa using hk)]
      exact ih x h

lemma countP_updateFirst {α : Type} (key : α → Nat) (i : Nat) (f : α → α)
    (p : α → Bool) (l : List α) (x : α)
    (h : l.find? (fun y => key y = i) = some x) :
    (updateFirst key i f l).countP p + (if p x then 1 else 0)
      = l.countP p + (if p (f x) then 1 else 0) := by
  rcases updateFirst_decomp key i f l x h with ⟨l₁, l₂, hl, hu, -, -⟩
  rw [hu, hl]
  simp only [List.countP_append, List.countP_cons]
  omega

/-! ### Inversion lemmas for the core operations -/

lemma credit_ok (st : State) (uid : Nat) (amt : Rat) (now : Nat)
    (st' : State) (h : credit st uid amt now = .ok st') :
    0 < amt ∧ ∃ a, findAccount st uid = some a
      ∧ st' = { st with
          accounts := updateFirst (fun x => x.id) uid
            (fun x => { x with cash := x.cash + amt }) st.accounts,
          audit := st.audit ++
            [{ kind := "cash_granted", subject := uid, amount := some amt,
               ts := now }] } := by
  unfold credit at h
  by_cases h1 : amt ≤ 0
  · rw [if_pos h1] at h
    exact absurd h (by simp)
  · rw [if_neg h1] at h
    cases hfa : findAccount st uid with
    | none => rw [hfa] at h; exact absurd h (by simp)
    | some a =>
      rw [hfa] at h
      injection h with h
      exact ⟨lt_of_not_le h1, a, rfl, h.symm⟩

lemma debit_ok (st : State) (uid : Nat) (amt : Rat) (st' : State)
    (h : debit st uid amt = .ok st') :
    0 < amt ∧ ∃ a, findAccount st uid = some a ∧ ¬ a.cash < amt
      ∧ st' = { st with
          accounts := updateFirst (fun x => x.id) uid
            (fun x => { x with cash := x.cash - amt }) st.accounts } := by
  unfold debit at h
  by_cases h1 : amt ≤ 0
  · rw [if_pos h1] at h
    exact absurd h (by simp)
  · rw [if_neg h1] at h
    cases hfa : findAccount st uid with
    | none => rw [hfa] at h; exact absurd h (by simp)
    | some a =>
      rw [hfa] at h
      dsimp only at h
      by_cases h2 : a.cash < amt
      · rw [if_pos h2] at h
        exact absurd h (by simp)
      · rw [if_neg h2] at h
        injection h with h
        exact ⟨lt_of_not_le h1, a, rfl, h2, h.symm⟩

lemma grant_item_ok (st : State) (uid : Nat) (item : String) (qty : Int)
    (now : Nat) (st' : State) (h : grant_item st uid item qty now = .ok st') :
    0 < qty ∧ (findAccount st uid).isSome
      ∧ st' = { st with
          inv := st.inv ++
            [{ user_id := uid, item_name := item, quantity := qty,
               received_at := now }],
          audit := st.audit ++
            [{ kind := "item_granted", subject := uid,
               amount := some (qty : Rat), ts := now }] } := by
  unfold grant_item at h
  by_cases h1 : qty ≤ 0
  · rw [if_pos h1] at h
    exact absurd h (by simp)
  · rw [if_neg h1] at h
    cases hfa : findAccount st uid with
    | none => rw [hfa] at h; exact absurd h (by simp)
    | some a =>
      rw [hfa] at h
      injection h with h
      exact ⟨lt_of_not_le h1, by simp [hfa], h.symm⟩

lemma submit_ok (st : State) (uid : Nat) (player : String) (amt : Rat)
    (note : String) (now : Nat) (st' : State)
    (h : submit st uid player amt note now = .ok st') :
    ∃ a, findAccount st uid = some a ∧ a.status = "approved" ∧ 0 < amt
      ∧ st' = { st with
          bids := st.bids ++
            [{ id := st.bids.length + 1, user_id := uid, player_id := player,
               amount := amt, note := note, status := "pending",
               created := now, resolved := none }],
          audit := st.audit ++
            [{ kind := "bid_created", subject := st.bids.length + 1,
               amount := some amt, ts := now }] } := by
  unfold submit at h
  cases hfa : findAccount st uid with
  | none => rw [hfa] at h; exact absurd h (by simp)
  | some a =>
    rw [hfa] at h
    dsimp only at h
    by_cases h1 : a.status ≠ "approved"
    · rw [if_pos h1] at h
      exact absurd h (by simp)
    · rw [if_neg h1] at h
      by_cases h2 : amt ≤ 0
      · rw [if_pos h2] at h
        exact absurd h (by simp)
      · rw [if_neg h2] at h
        injection h with h
        exact ⟨a, rfl, not_not.mp h1, lt_of_not_le h2, h.symm⟩

lemma approve_ok (st : State) (i now : Nat) (st' : State)
    (h : approve st i now = .ok st') :
    ∃ b a, findBid st i = some b ∧ b.status = "pending"
      ∧ findAccount st b.user_id = some a ∧ ¬ a.cash < b.amount
      ∧ st' = { st with
          accounts := updateFirst (fun x => x.id) b.user_id
            (fun x => { x with cash := x.cash - b.amount }) st.accounts,
          bids := updateFirst (fun x => x.id) i
            (fun x => { x with status := "approved", resolved := some now })
            st.bids,
          audit := st.audit ++
            [{ kind := "bid_approved", subject := i,
               amount := some b.amount, ts := now }] } := by
  unfold approve at h
  cases hfb : findBid st i with
  | none => rw [hfb] at h; exact absurd h (by simp)
  | some b =>
    rw [hfb] at h
    dsimp only at h
    by_cases h1 : b.status ≠ "pending"
    · rw [if_pos h1] at h
      exact absurd h (by simp)
    · rw [if_neg h1] at h
      cases hfa : findAccount st b.user_id with
      | none => rw [hfa] at h; exact absurd h (by simp)
      | some a =>
        rw [hfa] at h
        dsimp only at h
        by_cases h2 : a.cash < b.amount
        · rw [if_pos h2] at h
          exact absurd h (by simp)
        · rw [if_neg h2] at h
          injection h with h
          exact ⟨b, a, rfl, not_not.mp h1, hfa, h2, h.symm⟩

lemma reject_ok (st : State) (i now : Nat) (st' : State)
    (h : reject st i now = .ok st') :
    ∃ b, findBid st i = some b ∧ b.status = "pending"
      ∧ st' = { st with
          bids := updateFirst (fun x => x.id) i
            (fun x => { x with status := "rejected", resolved := some now })
            st.bids,
          audit := st.audit ++
            [{ kind := "bid_rejected", subject := i, amount := none,
               ts := now }] } := by
  unfold reject at h
  cases hfb : findBid st i with
  | none => rw [hfb] at h; exact absurd h (by simp)
  | some b =>
    rw [hfb] at h
    dsimp only at h
    by_cases h1 : b.status ≠ "pending"
    · rw [if_pos h1] at h
      exact absurd h (by simp)
    · rw [if_neg h1] at h
      injection h with h
      exact ⟨b, rfl, not_not.mp h1, h.symm⟩

lemma set_account_status_ok (st : State) (uid : Nat) (stat : String)
    (now : Nat) (st' : State) (h : set_account_status st uid stat now = .ok st') :
    st' = { st with
        accounts := updateFirst (fun a => a.id) uid
          (fun a => { a with status := stat }) st.accounts,
        audit := st.audit ++
          [{ kind := "account_status_changed", subject := uid,
             amount := none, ts := now }] } := by
  unfold set_account_status at h
  cases hfa : findAccount st uid with
  | none => rw [hfa] at h; exact absurd h (by simp)
  | some a =>
    rw [hfa] at h
    injection h with h
    exact h.symm

lemma register_cases (st : State) (uid : Nat) (role : String) :
    register st uid role = st
    ∨ register st uid role = { st with accounts := st.accounts ++
        [{ id := uid, role := role, status := "pending", cash := 0 }] } := by
  unfold register
  by_cases h : (findAccount st uid).isSome
  · exact Or.inl (if_pos h)
  · exact Or.inr (if_neg h)

/-! ### The non-negative balance invariant (C1) -/

lemma nonneg_updateFirst (l : List Account) (uid : Nat)
    (f : Account → Account) (hn : ∀ a ∈ l, 0 ≤ a.cash)
    (hf : ∀ a, l.find? (fun y => y.id = uid) = some a → 0 ≤ (f a).cash) :
    ∀ a ∈ updateFirst (fun x => x.id) uid f l, 0 ≤ a.cash := by
  cases hfa : l.find? (fun y => y.id = uid) with
  | none =>
    rw [updateFirst_of_find?_none (fun x => x.id) uid f l hfa]
    exact hn
  | some x =>
    rcases updateFirst_decomp (fun x => x.id) uid f l x hfa
      with ⟨l₁, l₂, hl, hu, -, -⟩
    rw [hu]
    intro a ha
    rcases List.mem_append.mp ha with h1 | h2
    · exact hn a (hl ▸ List.mem_append.mpr (Or.inl h1))
    · rcases List.mem_cons.mp h2 with rfl | h3
      · exact hf x hfa
      · exact hn a (hl ▸ List.mem_append.mpr (Or.inr (List.mem_cons_of_mem _ h3)))

lemma nonneg_credit (st : State) (uid : Nat) (amt : Rat) (now : Nat)
    (st' : State) (h : credit st uid amt now = .ok st') (hn : NonNeg st) :
    NonNeg st' := by
  rcases credit_ok st uid amt now st' h with ⟨hamt, a, -, rfl⟩
  intro x hx
  refine nonneg_updateFirst st.accounts uid _ hn ?_ x hx
  intro y hy
  have hmem : y ∈ st.accounts := List.mem_of_find?_eq_some hy
  exact add_nonneg (hn y hmem) hamt.le

lemma nonneg_debit (st : State) (uid : Nat) (amt : Rat) (st' : State)
    (h : debit st uid amt = .ok st') (hn : NonNeg st) : NonNeg st' := by
  rcases debit_ok st uid amt st' h with ⟨-, a, hfa, hge, rfl⟩
  intro x hx
  refine nonneg_updateFirst st.accounts uid _ hn ?_ x hx
  intro y hy
  have : y = a := by
    rw [findAccount] at hfa
    rw [hfa] at hy
    exact (Option.some.injEq _ _ ▸ hy).symm ▸ rfl
  subst this
  exact sub_nonneg.mpr (not_lt.mp hge)

lemma nonneg_grant_item (st : State) (uid : Nat) (item : String) (qty : Int)
    (now : Nat) (st' : State) (h : grant_item st uid item qty now = .ok st')
    (hn : NonNeg st) : NonNeg st' := by
  rcases grant_item_ok st uid item qty now st' h with ⟨-, -, rfl⟩
  exact hn

lemma nonneg_submit (st : State) (uid : Nat) (player : String) (amt : Rat)
    (note : String) (now : Nat) (st' : State)
    (h : submit st uid player amt note now = .ok st') (hn : NonNeg st) :
    NonNeg st' := by
  rcases submit_ok st uid player amt note now st' h with ⟨a, -, -, -, rfl⟩
  exact hn

lemma nonneg_approve (st : State) (i now : Nat) (st' : State)
    (h : approve st i now = .ok st') (hn : NonNeg st) : NonNeg st' := by
  rcases approve_ok st i now st' h with ⟨b, a, -, -, hfa, hge, rfl⟩
  intro x hx
  refine nonneg_updateFirst st.accounts b.user_id _ hn ?_ x hx
  intro y hy
  have : y = a := by
    rw [findAccount] at hfa
    rw [hfa] at hy
    exact (Option.some.injEq _ _ ▸ hy).symm ▸ rfl
  subst this
  exact sub_nonneg.mpr (not_lt.mp hge)

lemma nonneg_reject (st : State) (i now : Nat) (st' : State)
    (h : reject st i now = .ok st') (hn : NonNeg st) : NonNeg st' := by
  rcases reject_ok st i now st' h with ⟨b, -, -, rfl⟩
  exact hn

lemma nonneg_set_account_status (st : State) (uid : Nat) (stat : String)
    (now : Nat) (st' : State) (h : set_account_status st uid stat now = .ok st')
    (hn : NonNeg st) : NonNeg st' := by
  rcases set_account_status_ok st uid stat now st' h with rfl
  intro x hx
  refine nonneg_updateFirst st.accounts uid _ hn ?_ x hx
  intro y hy
  have hmem : y ∈ st.accounts := List.mem_of_find?_eq_some hy
  exact hn y hmem

lemma nonneg_register (st : State) (uid : Nat) (role : String)
    (hn : NonNeg st) : NonNeg (register st uid role) := by
  rcases register_cases st uid role with h | h <;> rw [h]
  · exact hn
  · intro a ha
    rcases List.mem_append.mp ha with h1 | h2
    · exact hn a h1
    · rcases List.mem_singleton.mp h2 with rfl
      norm_num

lemma nonneg_grantItems (uid : Nat) (now : Nat) :
    ∀ (items : List (String × Int)) (st : State), NonNeg st →
      NonNeg (grantItems st uid items now).1 := by
  intro items
  induction items with
  | nil => intro st hn; exact hn
  | cons p rest ih =>
    intro st hn
    rcases p with ⟨it, q⟩
    cases hg : grant_item st uid it q now with
    | error e => simpa [grantItems, hg] using hn
    | ok st1 =>
      have h1 : NonNeg st1 := nonneg_grant_item st uid it q now st1 hg hn
      simpa [grantItems, hg] using ih st1 h1

lemma nonneg_grantOne (st : State) (uid : Nat) (cash : Option Rat)
    (items : List (String × Int)) (now : Nat) (hn : NonNeg st) :
    NonNeg (grantOne st uid cash items now).1 := by
  cases cash with
  | none => simpa [grantOne] using nonneg_grantItems uid now items st hn
  | some c =>
    cases hc : credit st uid c now with
    | error e => simpa [grantOne, hc] using hn
    | ok st1 =>
      have h1 : NonNeg st1 := nonneg_credit st uid c now st1 hc hn
      simpa [grantOne, hc] using nonneg_grantItems uid now items st1 h1

lemma nonneg_distribute (cash : Option Rat) (items : List (String × Int))
    (now : Nat) :
    ∀ (uids : List Nat) (st : State), NonNeg st →
      NonNeg (distribute st uids cash items now).1 := by
  intro uids
  induction uids with
  | nil => intro st hn; exact hn
  | cons u rest ih =>
    intro st hn
    have h1 := nonneg_grantOne st u cash items now hn
    simpa [distribute] using ih (grantOne st u cash items now).1 h1

lemma nonneg_applyOp (op : Op) (st : State) (hn : NonNeg st) :
    NonNeg (applyOp op st) := by
  cases op with
  | register uid role => exact nonneg_register st uid role hn
  | set_status uid stat now =>
    cases h : set_account_status st uid stat now with
    | error e => simpa [applyOp, orSame, h] using hn
    | ok st1 =>
      simpa [applyOp, orSame, h] using
        nonneg_set_account_status st uid stat now st1 h hn
  | credit uid amount now =>
    cases h : credit st uid amount now with
    | error e => simpa [applyOp, orSame, h] using hn
    | ok st1 => simpa [applyOp, orSame, h] using nonneg_credit st uid amount now st1 h hn
  | debit uid amount =>
    cases h : debit st uid amount with
    | error e => simpa [applyOp, orSame, h] using hn
    | ok st1 => simpa [applyOp, orSame, h] using nonneg_debit st uid amount st1 h hn
  | grant uid item qty now =>
    cases h : grant_item st uid item qty now with
    | error e => simpa [applyOp, orSame, h] using hn
    | ok st1 =>
      simpa [applyOp, orSame, h] using nonneg_grant_item st uid item qty now st1 h hn
  | submit uid player amount note now =>
    cases h : submit st uid player amount note now with
    | error e => simpa [applyOp, orSame, h] using hn
    | ok st1 =>
      simpa [applyOp, orSame, h] using
        nonneg_submit st uid player amount note now st1 h hn
  | approve i now =>
    cases h : approve st i now with
    | error e => simpa [applyOp, orSame, h] using hn
    | ok st1 => simpa [applyOp, orSame, h] using nonneg_approve st i now st1 h hn
  | reject i now =>
    cases h : reject st i now with
    | error e => simpa [applyOp, orSame, h] using hn
    | ok st1 => simpa [applyOp, orSame, h] using nonneg_reject st i now st1 h hn
  | distribute uids cash items now =>
    simpa [applyOp] using nonneg_distribute cash items now uids st hn

/-- C1: in every reachable state of the system, the cash balance of every
account is non-negative; no operation (debit, bid approval, distribution
or any other) ever drives a balance negative. -/
theorem cash_balance_nonneg {st : State} (h : Reachable st) :
    ∀ a ∈ st.accounts, 0 ≤ a.cash := by
  induction h with
  | init => intro a ha; simp [initState] at ha
  | step op hst ih => exact nonneg_applyOp op _ ih

theorem cash_balance_nonneg_witness :
    0 ≤ (Account.mk 1 "user" "pending" 5).cash := by
  refine cash_balance_nonneg
    (Reachable.step (Op.credit 1 5 0)
      (Reachable.step (Op.register 1 "user") Reachable.init))
    (Account.mk 1 "user" "pending" 5) ?_
  simp [applyOp, orSame, register, credit, findAccount, initState,
    updateFirst]
  norm_num

/-! ### Terminal bids stay terminal (C2) -/

lemma approve_already_resolved (st : State) (i now : Nat) (b : Bid)
    (hb : findBid st i = some b) (hres : b.status ≠ "pending") :
    approve st i now = .error .AlreadyResolved := by
  unfold approve
  rw [hb]
  dsimp only
  rw [if_pos hres]

lemma reject_already_resolved (st : State) (i now : Nat) (b : Bid)
    (hb : findBid st i = some b) (hres : b.status ≠ "pending") :
    reject st i now = .error .AlreadyResolved := by
  unfold reject
  rw [hb]
  dsimp only
  rw [if_pos hres]

lemma register_bids (st : State) (uid : Nat) (role : String) :
    (register st uid role).bids = st.bids := by
  rcases register_cases st uid role with h | h <;> rw [h]

lemma grantItems_keeps (uid : Nat) (now : Nat) :
    ∀ (items : List (String × Int)) (st : State),
      (grantItems st uid items now).1.bids = st.bids
      ∧ ∃ t, (grantItems st uid items now).1.audit = st.audit ++ t
          ∧ ∀ e ∈ t, e.kind = "item_granted" := by
  intro items
  induction items with
  | nil => intro st; exact ⟨rfl, [], by simp [grantItems], by simp⟩
  | cons p rest ih =>
    intro st
    rcases p with ⟨it, q⟩
    cases hg : grant_item st uid it q now with
    | error e =>
      refine ⟨by simp [grantItems, hg], [], by simp [grantItems, hg], by simp⟩
    | ok st1 =>
      rcases grant_item_ok st uid it q now st1 hg with ⟨-, -, hst⟩
      rcases ih st1 with ⟨hbids, t, ha, hk⟩
      refine ⟨?_, AuditEntry.mk "item_granted" uid (some (q : Rat)) now :: t,
        ?_, ?_⟩
      · simp only [grantItems, hg]
        rw [hbids, hst]
      · simp only [grantItems, hg]
        rw [ha, hst]
        simp
      · intro e he
        rcases List.mem_cons.mp he with rfl | he
        · rfl
        · exact hk e he

lemma grantOne_keeps (st : State) (uid : Nat) (cash : Option Rat)
    (items : List (String × Int)) (now : Nat) :
    (grantOne st uid cash items now).1.bids = st.bids
    ∧ ∃ t, (grantOne st uid cash items now).1.audit = st.audit ++ t
        ∧ ∀ e ∈ t, e.kind = "cash_granted" ∨ e.kind = "item_granted" := by
  cases cash with
  | none =>
    rcases grantItems_keeps uid now items st with ⟨hb, t, ha, hk⟩
    exact ⟨hb, t, ha, fun e he => Or.inr (hk e he)⟩
  | some c =>
    cases hc : credit st uid c now with
    | error e =>
      refine ⟨by simp [grantOne, hc], [], by simp [grantOne, hc], by simp⟩
    | ok st1 =>
      rcases credit_ok st uid c now st1 hc with ⟨-, a, -, hst⟩
      rcases grantItems_keeps uid now items st1 with ⟨hb, t, ha, hk⟩
      refine ⟨?_, AuditEntry.mk "cash_granted" uid (some c) now :: t, ?_, ?_⟩
      · simp only [grantOne, hc]
        rw [hb, hst]
      · simp only [grantOne, hc]
        rw [ha, hst]
        simp
      · intro e he
        rcases List.mem_cons.mp he with rfl | he
        · exact Or.inl rfl
        · exact Or.inr (hk e he)

lemma distribute_keeps (cash : Option Rat) (items : List (String × Int))
    (now : Nat) :
    ∀ (uids : List Nat) (st : State),
      (distribute st uids cash items now).1.bids = st.bids
      ∧ ∃ t, (distribute st uids cash items now).1.audit = st.audit ++ t
          ∧ ∀ e ∈ t, e.kind = "cash_granted" ∨ e.kind = "item_granted" := by
  intro uids
  induction uids with
  | nil => intro st; exact ⟨rfl, [], by simp [distribute], by simp⟩
  | cons u rest ih =>
    intro st
    rcases grantOne_keeps st u cash items now with ⟨hb1, t1, ha1, hk1⟩
    rcases ih (grantOne st u cash items now).1 with ⟨hb2, t2, ha2, hk2⟩
    refine ⟨?_, t1 ++ t2, ?_, ?_⟩
    · simp only [distribute]
      rw [hb2, hb1]
    · simp only [distribute]
      rw [ha2, ha1]
      simp
    · intro e he
      rcases List.mem_append.mp he with he | he
      · exact hk1 e he
      · exact hk2 e he

lemma findBid_preserved (op : Op) (st : State) (i : Nat) (b : Bid)
    (hb : findBid st i = some b) (hres : b.status ≠ "pending") :
    findBid (applyOp op st) i = some b := by
  cases op with
  | register uid role =>
    simpa [applyOp, findBid, register_bids] using hb
  | set_status uid stat now =>
    cases h : set_account_status st uid stat now with
    | error e => simpa [applyOp, orSame, h] using hb
    | ok st1 =>
      rcases set_account_status_ok st uid stat now st1 h with rfl
      simpa [applyOp, orSame, h, findBid] using hb
  | credit uid amount now =>
    cases h : credit st uid amount now with
    | error e => simpa [applyOp, orSame, h] using hb
    | ok st1 =>
      rcases credit_ok st uid amount now st1 h with ⟨-, a, -, rfl⟩
      simpa [applyOp, orSame, h, findBid] using hb
  | debit uid amount =>
    cases h : debit st uid amount with
    | error e => simpa [applyOp, orSame, h] using hb
    | ok st1 =>
      rcases debit_ok st uid amount st1 h with ⟨-, a, -, -, rfl⟩
      simpa [applyOp, orSame, h, findBid] using hb
  | grant uid item qty now =>
    cases h : grant_item st uid item qty now with
    | error e => simpa [applyOp, orSame, h] using hb
    | ok st1 =>
      rcases grant_item_ok st uid item qty now st1 h with ⟨-, -, rfl⟩
      simpa [applyOp, orSame, h, findBid] using hb
  | submit uid player amount note now =>
    cases h : submit st uid player amount note now with
    | error e => simpa [applyOp, orSame, h] using hb
    | ok st1 =>
      rcases submit_ok st uid player amount note now st1 h with ⟨a, -, -, -, rfl⟩
      rw [findBid] at hb ⊢
      simp [applyOp, orSame, h, List.find?_append, hb]
  | approve j now =>
    cases h : approve st j now with
    | error e => simpa [applyOp, orSame, h] using hb
    | ok st1 =>
      rcases approve_ok st j now st1 h with ⟨b', a, hb', hpend', -, -, rfl⟩
      by_cases hij : i = j
      · subst hij
        rw [hb] at hb'
        injection hb' with hb'
        exact absurd (hb' ▸ hpend') hres
      · rw [findBid] at hb ⊢
        simp only [applyOp, orSame, h]
        rw [find?_updateFirst_ne (fun x => x.id) j i
          (fun x => { x with status := "approved", resolved := some now })
          (fun x => rfl) hij st.bids]
        exact hb
  | reject j now =>
    cases h : reject st j now with
    | error e => simpa [applyOp, orSame, h] using hb
    | ok st1 =>
      rcases reject_ok st j now st1 h with ⟨b', hb', hpend', rfl⟩
      by_cases hij : i = j
      · subst hij
        rw [hb] at hb'
        injection hb' with hb'
        exact absurd (hb' ▸ hpend') hres
      · rw [findBid] at hb ⊢
        simp only [applyOp, orSame, h]
        rw [find?_updateFirst_ne (fun x => x.id) j i
          (fun x => { x with status := "rejected", resolved := some now })
          (fun x => rfl) hij st.bids]
        exact hb
  | distribute uids cash items now =>
    rcases distribute_keeps cash items now uids st with ⟨hbids, -⟩
    rw [findBid] at hb ⊢
    simp only [applyOp]
    rw [hbids]
    exact hb

/-- C2: a transfer bid leaves the `pending` state at most once — any
resolution attempt (approve or reject) on a bid whose status is not
`pending` fails with `AlreadyResolved` and leaves the whole state
unchanged, and no operation whatsoever alters a bid that has left
`pending`. -/
theorem bid_single_resolution (st : State) (i : Nat) (b : Bid)
    (hb : findBid st i = some b) (hres : b.status ≠ "pending") :
    (∀ now, approve st i now = .error .AlreadyResolved
      ∧ applyOp (.approve i now) st = st)
    ∧ (∀ now, reject st i now = .error .AlreadyResolved
      ∧ applyOp (.reject i now) st = st)
    ∧ (∀ op, findBid (applyOp op st) i = some b) := by
  refine ⟨fun now => ⟨approve_already_resolved st i now b hb hres, ?_⟩,
    fun now => ⟨reject_already_resolved st i now b hb hres, ?_⟩,
    fun op => findBid_preserved op st i b hb hres⟩
  · simp [applyOp, orSame, approve_already_resolved st i now b hb hres]
  · simp [applyOp, orSame, reject_already_resolved st i now b hb hres]

theorem bid_single_resolution_witness :
    (approve (State.mk [Account.mk 1 "user" "approved" 10]
        [Bid.mk 1 1 "p9" 5 "" "approved" 0 (some 1)] [] []) 1 2
      = .error .AlreadyResolved)
    ∧ (findBid (applyOp (Op.credit 1 3 4)
        (State.mk [Account.mk 1 "user" "approved" 10]
          [Bid.mk 1 1 "p9" 5 "" "approved" 0 (some 1)] [] [])) 1
      = some (Bid.mk 1 1 "p9" 5 "" "approved" 0 (some 1))) := by
  refine ⟨((bid_single_resolution
      (State.mk [Account.mk 1 "user" "approved" 10]
        [Bid.mk 1 1 "p9" 5 "" "approved" 0 (some 1)] [] []) 1
      (Bid.mk 1 1 "p9" 5 "" "approved" 0 (some 1)) rfl (by decide)).1 2).1,
    (bid_single_resolution
      (State.mk [Account.mk 1 "user" "approved" 10]
        [Bid.mk 1 1 "p9" 5 "" "approved" 0 (some 1)] [] []) 1
      (Bid.mk 1 1 "p9" 5 "" "approved" 0 (some 1)) rfl (by decide)).2.2
      (Op.credit 1 3 4)⟩

/-! ### Approval re-validates the balance (C3) -/

/-- C3: `approve` re-reads the requesting account's balance at resolution
time.  For a pending bid, if the balance is below the bid amount the call
fails with `InsufficientFundsAtApproval` and nothing changes (the bid
stays pending); otherwise it succeeds, the balance drops by exactly the
bid amount, and the bid becomes `approved` with its resolution timestamp
set. -/
theorem approve_revalidates_balance (st : State) (i now : Nat) (b : Bid)
    (a : Account) (hb : findBid st i = some b) (hpend : b.status = "pending")
    (ha : findAccount st b.user_id = some a) :
    (a.cash < b.amount →
        approve st i now = .error .InsufficientFundsAtApproval
        ∧ applyOp (.approve i now) st = st)
    ∧ (¬ a.cash < b.amount →
        ∃ st', approve st i now = .ok st'
          ∧ balance_of st' b.user_id = some (a.cash - b.amount)
          ∧ findBid st' i
              = some { b with status := "approved", resolved := some now }) := by
  have hnp : ¬ b.status ≠ "pending" := not_not_intro hpend
  constructor
  · intro hlt
    have herr : approve st i now = .error .InsufficientFundsAtApproval := by
      unfold approve
      rw [hb]
      dsimp only
      rw [if_neg hnp, ha]
      dsimp only
      rw [if_pos hlt]
    exact ⟨herr, by simp [applyOp, orSame, herr]⟩
  · intro hge
    have hok : approve st i now = .ok { st with
        accounts := updateFirst (fun x => x.id) b.user_id
          (fun x => { x with cash := x.cash - b.amount }) st.accounts,
        bids := updateFirst (fun x => x.id) i
          (fun x => { x with status := "approved", resolved := some now })
          st.bids,
        audit := st.audit ++
          [AuditEntry.mk "bid_approved" i (some b.amount) now] } := by
      unfold approve
      rw [hb]
      dsimp only
      rw [if_neg hnp, ha]
      dsimp only
      rw [if_neg hge]
    have ha2 : st.accounts.find? (fun y => y.id = b.user_id) = some a := ha
    have hb2 : st.bids.find? (fun y => y.id = i) = some b := hb
    refine ⟨_, hok, ?_, ?_⟩
    · rw [balance_of, findAccount]
      dsimp only
      rw [find?_updateFirst_eq (fun x => x.id) b.user_id
        (fun x => { x with cash := x.cash - b.amount }) (fun x => rfl)
        st.accounts a ha2]
      rfl
    · rw [findBid]
      dsimp only
      rw [find?_updateFirst_eq (fun x => x.id) i
        (fun x => { x with status := "approved", resolved := some now })
        (fun x => rfl) st.bids b hb2]

theorem approve_revalidates_balance_witness :
    (∃ st', approve (State.mk [Account.mk 1 "user" "approved" 100]
        [Bid.mk 1 1 "p9" 100 "" "pending" 0 none,
         Bid.mk 2 1 "p9" 1 "" "pending" 0 none] [] []) 1 5 = .ok st'
      ∧ balance_of st' 1 = some ((100 : Rat) - 100)
      ∧ findBid st' 1 = some (Bid.mk 1 1 "p9" 100 "" "approved" 0 (some 5)))
    ∧ (approve (State.mk [Account.mk 1 "user" "approved" 0]
        [Bid.mk 2 1 "p9" 1 "" "pending" 0 none] [] []) 2 6
      = .error .InsufficientFundsAtApproval) :=
  ⟨(approve_revalidates_balance
      (State.mk [Account.mk 1 "user" "approved" 100]
        [Bid.mk 1 1 "p9" 100 "" "pending" 0 none,
         Bid.mk 2 1 "p9" 1 "" "pending" 0 none] [] []) 1 5
      (Bid.mk 1 1 "p9" 100 "" "pending" 0 none)
      (Account.mk 1 "user" "approved" 100) rfl rfl rfl).2 (by norm_num),
   ((approve_revalidates_balance
      (State.mk [Account.mk 1 "user" "approved" 0]
        [Bid.mk 2 1 "p9" 1 "" "pending" 0 none] [] []) 2 6
      (Bid.mk 2 1 "p9" 1 "" "pending" 0 none)
      (Account.mk 1 "user" "approved" 0) rfl rfl rfl).1 (by norm_num)).1⟩

/-! ### Submission validation (C6) -/

/-- C6: `submit` validates before mutating: a bid from an account whose
status is not `approved` fails with `AccountNotApproved`, and a bid with
`amount ≤ 0` from an approved account fails with `InvalidAmount`; in both
failure cases no bid row is created and the state is untouched (the
status check takes priority when both preconditions are violated). -/
theorem submit_validation (st : State) (uid : Nat) (player : String)
    (amt : Rat) (note : String) (now : Nat) (a : Account)
    (ha : findAccount st uid = some a) :
    (a.status ≠ "approved" →
        submit st uid player amt note now = .error .AccountNotApproved
        ∧ applyOp (.submit uid player amt note now) st = st)
    ∧ (a.status = "approved" → amt ≤ 0 →
        submit st uid player amt note now = .error .InvalidAmount
        ∧ applyOp (.submit uid player amt note now) st = st) := by
  constructor
  · intro hstat
    have herr : submit st uid player amt note now
        = .error .AccountNotApproved := by
      unfold submit
      rw [ha]
      dsimp only
      rw [if_pos hstat]
    exact ⟨herr, by simp [applyOp, orSame, herr]⟩
  · intro hstat hamt
    have herr : submit st uid player amt note now = .error .InvalidAmount := by
      unfold submit
      rw [ha]
      dsimp only
      rw [if_neg (not_not_intro hstat), if_pos hamt]
    exact ⟨herr, by simp [applyOp, orSame, herr]⟩

theorem submit_validation_witness :
    (submit (State.mk [Account.mk 1 "user" "pending" 0] [] [] [])
        1 "p9" 5 "" 0 = .error .AccountNotApproved)
    ∧ (submit (State.mk [Account.mk 2 "user" "approved" 0] [] [] [])
        2 "p9" 0 "" 0 = .error .InvalidAmount) :=
  ⟨((submit_validation (State.mk [Account.mk 1 "user" "pending" 0] [] [] [])
      1 "p9" 5 "" 0 (Account.mk 1 "user" "pending" 0) rfl).1
      (by decide)).1,
   ((submit_validation (State.mk [Account.mk 2 "user" "approved" 0] [] [] [])
      2 "p9" 0 "" 0 (Account.mk 2 "user" "approved" 0) rfl).2 rfl
      (by norm_num)).1⟩

/-! ### Inventory totals (C7) -/

/-- C7: `inventory_of` returns a mapping with unique item keys in which
the quantity shown for each item is the sum of the quantities of all
grants of that item to that account, and every granted item appears. -/
theorem inventory_of_totals (st : State) (uid : Nat) :
    ((inventory_of st uid).map (fun p => p.1)).Nodup
    ∧ (∀ it q, (it, q) ∈ inventory_of st uid → q = itemTotal st uid it)
    ∧ (∀ it, it ∈ (inventory_of st uid).map (fun p => p.1) ↔
        ∃ g ∈ st.inv, g.user_id = uid ∧ g.item_name = it) := by
  refine ⟨?_, ?_, ?_⟩
  · rw [inventory_of, List.map_map]
    rw [show ((fun p : String × Int => p.1)
          ∘ fun it : String => (it, itemTotal st uid it))
        = fun it : String => it from rfl]
    rw [List.map_id']
    exact List.nodup_dedup _
  · intro it q hmem
    rw [inventory_of] at hmem
    rcases List.mem_map.mp hmem with ⟨it2, -, heq⟩
    injection heq with h1 h2
    subst h1
    exact h2.symm
  · intro it
    have hmapfst : (inventory_of st uid).map (fun p => p.1)
        = ((st.inv.filter (fun g => g.user_id = uid)).map
            (fun g => g.item_name)).dedup := by
      rw [inventory_of, List.map_map]
      rw [show ((fun p : String × Int => p.1)
            ∘ fun it : String => (it, itemTotal st uid it))
          = fun it : String => it from rfl]
      rw [List.map_id']
    rw [hmapfst, List.mem_dedup]
    constructor
    · intro h
      rcases List.mem_map.mp h with ⟨g, hg, hname⟩
      rcases List.mem_filter.mp hg with ⟨hmem, huid⟩
      exact ⟨g, hmem, by simpa using huid, hname⟩
    · rintro ⟨g, hmem, huid, hname⟩
      exact List.mem_map.mpr ⟨g, List.mem_filter.mpr ⟨hmem, by simpa using huid⟩, hname⟩

theorem inventory_of_totals_witness :
    inventory_of (State.mk [Account.mk 1 "user" "approved" 0] [] []
        [] ) 1 = []
    ∧ ((5 : Int) = itemTotal (State.mk [Account.mk 1 "user" "approved" 0] []
        [Grant.mk 1 "boots" 2 0, Grant.mk 1 "boots" 3 1] []) 1 "boots")
    ∧ inventory_of (State.mk [Account.mk 1 "user" "approved" 0] []
        [Grant.mk 1 "boots" 2 0, Grant.mk 1 "boots" 3 1] []) 1
      = [("boots", 5)] := by
  refine ⟨rfl, ?_, by decide⟩
  exact (inventory_of_totals (State.mk [Account.mk 1 "user" "approved" 0] []
      [Grant.mk 1 "boots" 2 0, Grant.mk 1 "boots" 3 1] []) 1).2.1
    "boots" 5 (by decide)

/-! ### Audit-trail bookkeeping (C4) -/

lemma countP_append_single {α : Type} (l : List α) (e : α) (p : α → Bool) :
    (l ++ [e]).countP p = l.countP p + (if p e then 1 else 0) := by
  simp [List.countP_append, List.countP_cons]

lemma auditInv_applyOp (op : Op) (st : State)
    (h : st.audit.countP (fun e => e.kind = "bid_approved")
        = st.bids.countP (fun b => b.status = "approved")) :
    (applyOp op st).audit.countP (fun e => e.kind = "bid_approved")
      = (applyOp op st).bids.countP (fun b => b.status = "approved") := by
  cases op with
  | register uid role =>
    rcases register_cases st uid role with h1 | h1 <;>
      simpa [applyOp, h1] using h
  | set_status uid stat now =>
    cases hc : set_account_status st uid stat now with
    | error e => simpa [applyOp, orSame, hc] using h
    | ok st1 =>
      rcases set_account_status_ok st uid stat now st1 hc with rfl
      simpa [applyOp, orSame, hc, countP_append_single] using h
  | credit uid amount now =>
    cases hc : credit st uid amount now with
    | error e => simpa [applyOp, orSame, hc] using h
    | ok st1 =>
      rcases credit_ok st uid amount now st1 hc with ⟨-, a, -, rfl⟩
      simpa [applyOp, orSame, hc, countP_append_single] using h
  | debit uid amount =>
    cases hc : debit st uid amount with
    | error e => simpa [applyOp, orSame, hc] using h
    | ok st1 =>
      rcases debit_ok st uid amount st1 hc with ⟨-, a, -, -, rfl⟩
      simpa [applyOp, orSame, hc] using h
  | grant uid item qty now =>
    cases hc : grant_item st uid item qty now with
    | error e => simpa [applyOp, orSame, hc] using h
    | ok st1 =>
      rcases grant_item_ok st uid item qty now st1 hc with ⟨-, -, rfl⟩
      simpa [applyOp, orSame, hc, countP_append_single] using h
  | submit uid player amount note now =>
    cases hc : submit st uid player amount note now with
    | error e => simpa [applyOp, orSame, hc] using h
    | ok st1 =>
      rcases submit_ok st uid player amount note now st1 hc with ⟨a, -, -, -, rfl⟩
      simpa [applyOp, orSame, hc, countP_append_single] using h
  | approve i now =>
    cases hc : approve st i now with
    | error e => simpa [applyOp, orSame, hc] using h
    | ok st1 =>
      rcases approve_ok st i now st1 hc with ⟨b, a, hb, hpend, -, -, rfl⟩
      have hb2 : st.bids.find? (fun y => y.id = i) = some b := hb
      have hcnt := countP_updateFirst (fun x => x.id) i
        (fun x => { x with status := "approved", resolved := some now })
        (fun b => b.status = "approved") st.bids b hb2
      simp [hpend] at hcnt
      simp only [applyOp, orSame, hc]
      rw [countP_append_single]
      simp
      omega
  | reject i now =>
    cases hc : reject st i now with
    | error e => simpa [applyOp, orSame, hc] using h
    | ok st1 =>
      rcases reject_ok st i now st1 hc with ⟨b, hb, hpend, rfl⟩
      have hb2 : st.bids.find? (fun y => y.id = i) = some b := hb
      have hcnt := countP_updateFirst (fun x => x.id) i
        (fun x => { x with status := "rejected", resolved := some now })
        (fun b => b.status = "approved") st.bids b hb2
      simp [hpend] at hcnt
      simp only [applyOp, orSame, hc]
      rw [countP_append_single]
      simp
      omega
  | distribute uids cash items now =>
    rcases distribute_keeps cash items now uids st with ⟨hbids, t, ha, hk⟩
    have ht : t.countP (fun e => e.kind = "bid_approved") = 0 := by
      rw [List.countP_eq_zero]
      intro e he
      rcases hk e he with h1 | h1 <;> simp [h1]
    simp only [applyOp]
    rw [hbids, ha, List.countP_append, ht]
    simpa using h

lemma audit_append_only (op : Op) (st : State) :
    ∃ t, (applyOp op st).audit = st.audit ++ t := by
  cases op with
  | register uid role =>
    rcases register_cases st uid role with h1 | h1 <;>
      exact ⟨[], by simp [applyOp, h1]⟩
  | set_status uid stat now =>
    cases hc : set_account_status st uid stat now with
    | error e => exact ⟨[], by simp [applyOp, orSame, hc]⟩
    | ok st1 =>
      rcases set_account_status_ok st uid stat now st1 hc with rfl
      exact ⟨[AuditEntry.mk "account_status_changed" uid none now],
        by simp [applyOp, orSame, hc]⟩
  | credit uid amount now =>
    cases hc : credit st uid amount now with
    | error e => exact ⟨[], by simp [applyOp, orSame, hc]⟩
    | ok st1 =>
      rcases credit_ok st uid amount now st1 hc with ⟨-, a, -, rfl⟩
      exact ⟨[AuditEntry.mk "cash_granted" uid (some amount) now],
        by simp [applyOp, orSame, hc]⟩
  | debit uid amount =>
    cases hc : debit st uid amount with
    | error e => exact ⟨[], by simp [applyOp, orSame, hc]⟩
    | ok st1 =>
      rcases debit_ok st uid amount st1 hc with ⟨-, a, -, -, rfl⟩
      exact ⟨[], by simp [applyOp, orSame, hc]⟩
  | grant uid item qty now =>
    cases hc : grant_item st uid item qty now with
    | error e => exact ⟨[], by simp [applyOp, orSame, hc]⟩
    | ok st1 =>
      rcases grant_item_ok st uid item qty now st1 hc with ⟨-, -, rfl⟩
      exact ⟨[AuditEntry.mk "item_granted" uid (some (qty : Rat)) now],
        by simp [applyOp, orSame, hc]⟩
  | submit uid player amount note now =>
    cases hc : submit st uid player amount note now with
    | error e => exact ⟨[], by simp [applyOp, orSame, hc]⟩
    | ok st1 =>
      rcases submit_ok st uid player amount note now st1 hc with ⟨a, -, -, -, rfl⟩
      exact ⟨[AuditEntry.mk "bid_created" (st.bids.length + 1)
          (some amount) now], by simp [applyOp, orSame, hc]⟩
  | approve i now =>
    cases hc : approve st i now with
    | error e => exact ⟨[], by simp [applyOp, orSame, hc]⟩
    | ok st1 =>
      rcases approve_ok st i now st1 hc with ⟨b, a, -, -, -, -, rfl⟩
      exact ⟨[AuditEntry.mk "bid_approved" i (some b.amount) now],
        by simp [applyOp, orSame, hc]⟩
  | reject i now =>
    cases hc : reject st i now with
    | error e => exact ⟨[], by simp [applyOp, orSame, hc]⟩
    | ok st1 =>
      rcases reject_ok st i now st1 hc with ⟨b, -, -, rfl⟩
      exact ⟨[AuditEntry.mk "bid_rejected" i none now],
        by simp [applyOp, orSame, hc]⟩
  | distribute uids cash items now =>
    rcases distribute_keeps cash items now uids st with ⟨-, t, ha, -⟩
    exact ⟨t, by simpa [applyOp] using ha⟩

/-- C4: every successful `approve`, `reject`, `credit` or `grant_item`
appends exactly one matching audit entry; in every reachable state the
number of `bid_approved` audit entries equals the number of approved
bids; and the audit trail is append-only — no operation ever mutates or
deletes an existing entry. -/
theorem audit_trail_properties :
    (∀ st i now st' b, findBid st i = some b → approve st i now = .ok st' →
        st'.audit = st.audit
          ++ [AuditEntry.mk "bid_approved" i (some b.amount) now])
    ∧ (∀ st i now st', reject st i now = .ok st' →
        st'.audit = st.audit ++ [AuditEntry.mk "bid_rejected" i none now])
    ∧ (∀ st uid amt now st', credit st uid amt now = .ok st' →
        st'.audit = st.audit ++ [AuditEntry.mk "cash_granted" uid (some amt) now])
    ∧ (∀ st uid item qty now st', grant_item st uid item qty now = .ok st' →
        st'.audit = st.audit
          ++ [AuditEntry.mk "item_granted" uid (some (qty : Rat)) now])
    ∧ (∀ st, Reachable st →
        st.audit.countP (fun e => e.kind = "bid_approved")
          = st.bids.countP (fun b => b.status = "approved"))
    ∧ (∀ op st, ∃ t, (applyOp op st).audit = st.audit ++ t) := by
  refine ⟨?_, ?_, ?_, ?_, ?_, audit_append_only⟩
  · intro st i now st' b hb h
    rcases approve_ok st i now st' h with ⟨b2, a, hb2, -, -, -, rfl⟩
    rw [hb] at hb2
    injection hb2 with hb2
    subst hb2
    rfl
  · intro st i now st' h
    rcases reject_ok st i now st' h with ⟨b, -, -, rfl⟩
    rfl
  · intro st uid amt now st' h
    rcases credit_ok st uid amt now st' h with ⟨-, a, -, rfl⟩
    rfl
  · intro st uid item qty now st' h
    rcases grant_item_ok st uid item qty now st' h with ⟨-, -, rfl⟩
    rfl
  · intro st h
    induction h with
    | init => rfl
    | step op hst ih => exact auditInv_applyOp op _ ih

theorem audit_trail_properties_witness :
    ((State.mk [Account.mk 1 "user" "approved" 50] [] []
        [AuditEntry.mk "cash_granted" 1 (some 50) 7]).audit
      = (State.mk [Account.mk 1 "user" "approved" 0] [] [] []).audit
        ++ [AuditEntry.mk "cash_granted" 1 (some 50) 7])
    ∧ (initState.audit.countP (fun e => e.kind = "bid_approved")
        = initState.bids.countP (fun b => b.status = "approved")) :=
  ⟨audit_trail_properties.2.2.1
      (State.mk [Account.mk 1 "user" "approved" 0] [] [] []) 1 50 7
      (State.mk [Account.mk 1 "user" "approved" 50] [] []
        [AuditEntry.mk "cash_granted" 1 (some 50) 7])
      (by norm_num [credit, findAccount, updateFirst]),
   audit_trail_properties.2.2.2.2.1 initState Reachable.init⟩

/-! ### Distribution is per-account independent (C5) -/

lemma credit_missing (st : State) (u : Nat) (c : Rat) (now : Nat)
    (hc : 0 < c) (h : findAccount st u = none) :
    credit st u c now = .error .UnknownAccount := by
  unfold credit
  rw [if_neg (not_le.mpr hc), h]

lemma credit_exists (st : State) (u : Nat) (c : Rat) (now : Nat)
    (a : Account) (hc : 0 < c) (h : findAccount st u = some a) :
    credit st u c now = .ok { st with
      accounts := updateFirst (fun x => x.id) u
        (fun x => { x with cash := x.cash + c }) st.accounts,
      audit := st.audit ++ [AuditEntry.mk "cash_granted" u (some c) now] } := by
  unfold credit
  rw [if_neg (not_le.mpr hc), h]

lemma grant_item_missing (st : State) (u : Nat) (it : String) (q : Int)
    (now : Nat) (hq : 0 < q) (h : findAccount st u = none) :
    grant_item st u it q now = .error .UnknownAccount := by
  unfold grant_item
  rw [if_neg (not_le.mpr hq), h]

lemma grant_item_exists (st : State) (u : Nat) (it : String) (q : Int)
    (now : Nat) (a : Account) (hq : 0 < q) (h : findAccount st u = some a) :
    grant_item st u it q now = .ok { st with
      inv := st.inv ++ [Grant.mk u it q now],
      audit := st.audit
        ++ [AuditEntry.mk "item_granted" u (some (q : Rat)) now] } := by
  unfold grant_item
  rw [if_neg (not_le.mpr hq), h]

lemma grantItems_missing (st : State) (u : Nat)
    (items : List (String × Int)) (now : Nat) (h : findAccount st u = none)
    (hq : ∀ p ∈ items, 0 < p.2) (hne : items ≠ []) :
    grantItems st u items now = (st, some Err.UnknownAccount) := by
  cases items with
  | nil => exact absurd rfl hne
  | cons p rest =>
    rcases p with ⟨it, q⟩
    have hg : grant_item st u it q now = .error .UnknownAccount :=
      grant_item_missing st u it q now (hq (it, q) (List.mem_cons_self _ _)) h
    simp [grantItems, hg]

lemma grantItems_run (u : Nat) (now : Nat) :
    ∀ (items : List (String × Int)) (st : State),
      (findAccount st u).isSome → (∀ p ∈ items, 0 < p.2) →
      grantItems st u items now
        = ({ st with
            inv := st.inv ++ items.map (fun p => Grant.mk u p.1 p.2 now),
            audit := st.audit ++ items.map (fun p =>
              AuditEntry.mk "item_granted" u (some (p.2 : Rat)) now) },
           none) := by
  intro items
  induction items with
  | nil =>
    intro st h hq
    cases st
    simp [grantItems]
  | cons p rest ih =>
    intro st h hq
    rcases p with ⟨it, q⟩
    rcases Option.isSome_iff_exists.mp h with ⟨a, ha⟩
    have hg := grant_item_exists st u it q now a
      (hq (it, q) (List.mem_cons_self _ _)) ha
    have h1 : (findAccount { st with
        inv := st.inv ++ [Grant.mk u it q now],
        audit := st.audit
          ++ [AuditEntry.mk "item_granted" u (some (q : Rat)) now] }
        u).isSome := by
      simpa [findAccount] using h
    have hstep : grantItems st u ((it, q) :: rest) now
        = grantItems { st with
            inv := st.inv ++ [Grant.mk u it q now],
            audit := st.audit
              ++ [AuditEntry.mk "item_granted" u (some (q : Rat)) now] }
          u rest now := by
      simp only [grantItems, hg]
    rw [hstep, ih _ h1 (fun p hp => hq p (List.mem_cons_of_mem _ hp))]
    cases st
    simp [List.append_assoc]

lemma granted_sum (u : Nat) (it : String) (now : Nat)
    (items : List (String × Int)) :
    (((items.map (fun p => Grant.mk u p.1 p.2 now)).filter
        (fun g => g.user_id = u ∧ g.item_name = it)).map
      (fun g => g.quantity)).sum
      = ((items.filter (fun p => p.1 = it)).map (fun p => p.2)).sum := by
  induction items with
  | nil => rfl
  | cons p rest ih =>
    rw [List.map_cons, List.filter_cons, List.filter_cons]
    by_cases hp : p.1 = it
    · rw [if_pos (by simp [hp]), if_pos (by simp [hp]),
        List.map_cons, List.map_cons, List.sum_cons, List.sum_cons, ih]
    · rw [if_neg (by simp [hp]), if_neg (by simp [hp]), ih]

lemma granted_none (u v : Nat) (it : String) (now : Nat)
    (items : List (String × Int)) (hvu : v ≠ u) :
    (items.map (fun p => Grant.mk u p.1 p.2 now)).filter
        (fun g => g.user_id = v ∧ g.item_name = it) = [] := by
  induction items with
  | nil => rfl
  | cons p rest ih =>
    have huv : u ≠ v := fun h => hvu h.symm
    rw [List.map_cons, List.filter_cons, if_neg (by simp [huv])]
    exact ih

lemma grantOne_missing (st : State) (u : Nat) (cash : Option Rat)
    (items : List (String × Int)) (now : Nat) (h : findAccount st u = none)
    (hc : ∀ c, cash = some c → 0 < c) (hq : ∀ p ∈ items, 0 < p.2) :
    grantOne st u cash items now
      = (st, if cash.isSome ∨ items ≠ [] then some Err.UnknownAccount
             else none) := by
  cases cash with
  | none =>
    cases items with
    | nil => simp [grantOne, grantItems]
    | cons p rest =>
      have hgi := grantItems_missing st u (p :: rest) now h hq (by simp)
      simp [grantOne, hgi]
  | some c =>
    have hcr := credit_missing st u c now (hc c rfl) h
    simp [grantOne, hcr]

lemma grantOne_exists (st : State) (u : Nat) (cash : Option Rat)
    (items : List (String × Int)) (now : Nat) (a : Account)
    (h : findAccount st u = some a) (hc : ∀ c, cash = some c → 0 < c)
    (hq : ∀ p ∈ items, 0 < p.2) :
    (grantOne st u cash items now).2 = none
    ∧ balance_of (grantOne st u cash items now).1 u
        = some (a.cash + cash.getD 0)
    ∧ (∀ v, v ≠ u →
        findAccount (grantOne st u cash items now).1 v = findAccount st v)
    ∧ (∀ it, itemTotal (grantOne st u cash items now).1 u it
        = itemTotal st u it
          + ((items.filter (fun p => p.1 = it)).map (fun p => p.2)).sum)
    ∧ (∀ v, v ≠ u → ∀ it,
        itemTotal (grantOne st u cash items now).1 v it
          = itemTotal st v it) := by
  cases cash with
  | none =>
    have hiso : (findAccount st u).isSome := by simp [h]
    have hgo : grantOne st u none items now
        = ({ st with
            inv := st.inv ++ items.map (fun p => Grant.mk u p.1 p.2 now),
            audit := st.audit ++ items.map (fun p =>
              AuditEntry.mk "item_granted" u (some (p.2 : Rat)) now) },
           none) := by
      rw [show grantOne st u none items now = grantItems st u items now
          from rfl]
      exact grantItems_run u now items st hiso hq
    refine ⟨by rw [hgo], ?_, ?_, ?_, ?_⟩
    · rw [hgo, balance_of]
      rw [show findAccount ({ st with
          inv := st.inv ++ items.map (fun p => Grant.mk u p.1 p.2 now),
          audit := st.audit ++ items.map (fun p =>
            AuditEntry.mk "item_granted" u (some (p.2 : Rat)) now) } : State)
          u = some a from h]
      simp
    · intro v hv
      rw [hgo]
      rfl
    · intro it
      rw [hgo, itemTotal, itemTotal]
      try dsimp only
      rw [List.filter_append, List.map_append, List.sum_append, granted_sum]
    · intro v hv it
      rw [hgo, itemTotal, itemTotal]
      try dsimp only
      rw [List.filter_append, List.map_append,
        granted_none u v it now items hv]
      simp
  | some c =>
    have h2 : st.accounts.find? (fun y => y.id = u) = some a := h
    have hcr := credit_exists st u c now a (hc c rfl) h
    have hiso : (findAccount ({ st with
        accounts := updateFirst (fun x => x.id) u
          (fun x => { x with cash := x.cash + c }) st.accounts,
        audit := st.audit
          ++ [AuditEntry.mk "cash_granted" u (some c) now] } : State)
        u).isSome := by
      simp only [findAccount]
      rw [find?_updateFirst_eq (fun x => x.id) u
        (fun x => { x with cash := x.cash + c }) (fun x => rfl)
        st.accounts a h2]
      rfl
    have hgo : grantOne st u (some c) items now
        = grantItems { st with
            accounts := updateFirst (fun x => x.id) u
              (fun x => { x with cash := x.cash + c }) st.accounts,
            audit := st.audit
              ++ [AuditEntry.mk "cash_granted" u (some c) now] }
          u items now := by
      unfold grantOne
      dsimp only
      rw [hcr]
    have hrun := grantItems_run u now items _ hiso hq
    refine ⟨by rw [hgo, hrun], ?_, ?_, ?_, ?_⟩
    · rw [hgo, hrun, balance_of]
      simp only [findAccount]
      try dsimp only
      rw [find?_updateFirst_eq (fun x => x.id) u
        (fun x => { x with cash := x.cash + c }) (fun x => rfl)
        st.accounts a h2]
      rfl
    · intro v hv
      rw [hgo, hrun]
      simp only [findAccount]
      try dsimp only
      rw [find?_updateFirst_ne (fun x => x.id) u v
        (fun x => { x with cash := x.cash + c }) (fun x => rfl)
        hv st.accounts]
    · intro it
      rw [hgo, hrun, itemTotal, itemTotal]
      try dsimp only
      rw [List.filter_append, List.map_append, List.sum_append, granted_sum]
    · intro v hv it
      rw [hgo, hrun, itemTotal, itemTotal]
      try dsimp only
      rw [List.filter_append, List.map_append,
        granted_none u v it now items hv]
      simp

lemma grantOne_isSome (st : State) (u : Nat) (cash : Option Rat)
    (items : List (String × Int)) (now : Nat)
    (hc : ∀ c, cash = some c → 0 < c) (hq : ∀ p ∈ items, 0 < p.2)
    (v : Nat) :
    (findAccount (grantOne st u cash items now).1 v).isSome
      = (findAccount st v).isSome := by
  cases hfa : findAccount st u with
  | none => rw [grantOne_missing st u cash items now hfa hc hq]
  | some a =>
    rcases grantOne_exists st u cash items now a hfa hc hq
      with ⟨-, hbal, hne, -, -⟩
    by_cases hv : v = u
    · rw [hv]
      rw [balance_of] at hbal
      cases hfv : findAccount (grantOne st u cash items now).1 u with
      | none =>
        rw [hfv] at hbal
        exact absurd hbal (by simp)
      | some x => simp [hfv, hfa]
    · rw [hne v hv]

/-- C5: `distribute` applies each listed account's grant (cash and items)
independently — a failure for one account, such as `UnknownAccount` for a
vanished account, does not roll back or prevent the grants applied to the
other accounts in the same call.  The call returns a per-account result
list reporting success or the error kind for every listed account; every
existing listed account receives the full cash credit and the full item
grants; accounts not listed keep their balance and inventory totals. -/
theorem distribute_partial_failure (uids : List Nat) (st : State)
    (cash : Option Rat) (items : List (String × Int)) (now : Nat)
    (hc : ∀ c, cash = some c → 0 < c) (hq : ∀ p ∈ items, 0 < p.2)
    (hnd : uids.Nodup) :
    ((distribute st uids cash items now).2
      = uids.map (fun u => (u,
          if (findAccount st u).isSome then (none : Option Err)
          else if cash.isSome ∨ items ≠ [] then some Err.UnknownAccount
          else none)))
    ∧ (∀ u ∈ uids, ∀ a, findAccount st u = some a →
        balance_of (distribute st uids cash items now).1 u
            = some (a.cash + cash.getD 0)
        ∧ ∀ it, itemTotal (distribute st uids cash items now).1 u it
            = itemTotal st u it
              + ((items.filter (fun p => p.1 = it)).map (fun p => p.2)).sum)
    ∧ (∀ v, v ∉ uids →
        findAccount (distribute st uids cash items now).1 v
            = findAccount st v
        ∧ ∀ it, itemTotal (distribute st uids cash items now).1 v it
            = itemTotal st v it) := by
  induction uids generalizing st with
  | nil => exact ⟨rfl, by simp, fun v _ => ⟨rfl, fun it => rfl⟩⟩
  | cons u rest ih =>
    have hu : u ∉ rest := (List.nodup_cons.mp hnd).1
    have hnd2 : rest.Nodup := (List.nodup_cons.mp hnd).2
    cases hfa : findAccount st u with
    | none =>
      have hg := grantOne_missing st u cash items now hfa hc hq
      rcases ih st hnd2 with ⟨ih1, ih2, ih3⟩
      refine ⟨?_, ?_, ?_⟩
      · simp only [distribute]
        rw [hg]
        try dsimp only
        rw [ih1, List.map_cons, hfa]
        rfl
      · intro w hw aw hfw
        rcases List.mem_cons.mp hw with rfl | hw2
        · rw [hfa] at hfw
          exact absurd hfw (by simp)
        · simp only [distribute]
          rw [hg]
          try dsimp only
          exact ih2 w hw2 aw hfw
      · intro v hv
        simp only [distribute]
        rw [hg]
        try dsimp only
        exact ih3 v (fun hmem => hv (List.mem_cons_of_mem _ hmem))
    | some a =>
      rcases grantOne_exists st u cash items now a hfa hc hq
        with ⟨hr2, hbal, hne, hitem, hitemv⟩
      rcases ih (grantOne st u cash items now).1 hnd2 with ⟨ih1, ih2, ih3⟩
      refine ⟨?_, ?_, ?_⟩
      · simp only [distribute]
        try dsimp only
        rw [ih1, hr2, List.map_cons, hfa]
        refine congrArg₂ List.cons (by simp) ?_
        refine List.map_congr_left ?_
        intro w hw
        rw [grantOne_isSome st u cash items now hc hq w]
      · intro w hw aw hfw
        rcases List.mem_cons.mp hw with rfl | hw2
        · rw [hfa] at hfw
          injection hfw with hfw
          subst hfw
          constructor
          · simp only [distribute]
            try dsimp only
            rw [balance_of, (ih3 w hu).1, ← balance_of]
            exact hbal
          · intro it
            simp only [distribute]
            try dsimp only
            rw [(ih3 w hu).2 it]
            exact hitem it
        · have hwne : w ≠ u := fun he => hu (he ▸ hw2)
          have hfw2 : findAccount (grantOne st u cash items now).1 w
              = some aw := by
            rw [hne w hwne]
            exact hfw
          rcases ih2 w hw2 aw hfw2 with ⟨hb2, hi2⟩
          constructor
          · simp only [distribute]
            try dsimp only
            exact hb2
          · intro it
            simp only [distribute]
            try dsimp only
            rw [hi2 it, hitemv w hwne it]
      · intro v hv
        have hvne : v ≠ u := fun he => hv (he ▸ List.mem_cons_self u rest)
        have hvrest : v ∉ rest := fun hmem => hv (List.mem_cons_of_mem _ hmem)
        constructor
        · simp only [distribute]
          try dsimp only
          rw [(ih3 v hvrest).1]
          exact hne v hvne
        · intro it
          simp only [distribute]
          try dsimp only
          rw [(ih3 v hvrest).2 it]
          exact hitemv v hvne it

theorem distribute_partial_failure_witness :
    ((distribute (State.mk [Account.mk 1 "user" "approved" 20] [] [] [])
        [1, 2] (some 50) [("boots", 2)] 9).2
      = [(1, (none : Option Err)), (2, some Err.UnknownAccount)])
    ∧ (balance_of (distribute
        (State.mk [Account.mk 1 "user" "approved" 20] [] [] [])
        [1, 2] (some 50) [("boots", 2)] 9).1 1 = some ((20 : Rat) + 50))
    ∧ (itemTotal (distribute
        (State.mk [Account.mk 1 "user" "approved" 20] [] [] [])
        [1, 2] (some 50) [("boots", 2)] 9).1 1 "boots" = (2 : Int)) := by
  rcases distribute_partial_failure [1, 2]
      (State.mk [Account.mk 1 "user" "approved" 20] [] [] [])
      (some 50) [("boots", 2)] 9
      (by intro c hcc; cases hcc; norm_num) (by decide) (by decide)
    with ⟨h1, h2, -⟩
  refine ⟨?_, ?_, ?_⟩
  · rw [h1]
    rfl
  · exact (h2 1 (by decide) (Account.mk 1 "user" "approved" 20) rfl).1
  · exact (h2 1 (by decide) (Account.mk 1 "user" "approved" 20) rfl).2 "boots"

end MatchSim
